import Mathlib

/-!
Verification of the task-concurrency utility layer (`src/utils.ts`) of the
vue-concurrency repository.

The code under `src/` is the single file `utils.ts`; the `Task` and
`TaskInstance` modules it imports are not part of the visible source, so
their state model (instance lifecycle booleans, the derived instance
subsequences, promise settlement, the abort signal) is modelled from the
specification where noted.  Vue's `computed` primitive is a lazily
recomputed pull-based view; following the spec's design note it is modelled
as a plain recompute-on-read function `Unit → α`.
-/

namespace VueConcurrency

/-- Modelled from the spec: the status enumeration of a `TaskInstance`
(`TaskInstance.ts` is not under `src/`): exactly one of
pending, running, enqueued, successful, error, canceled, dropped. -/
inductive Status where
  | pending
  | running
  | enqueued
  | successful
  | error
  | canceled
  | dropped
deriving DecidableEq, Repr

/-- Modelled from the spec: a `TaskInstance` record (`TaskInstance.ts` is not
under `src/`).  It carries the six lifecycle booleans, which are the stored
fields the visible code (`dropEnqueued` in `utils.ts`) mutates directly; the
`status` view is derived from them below.  The `id` field stands for the
instance's identity; `value` and `errorValue` for its result and error. -/
structure TaskInstance where
  id : Nat
  isEnqueued : Bool := false
  isRunning : Bool := false
  isSuccessful : Bool := false
  isError : Bool := false
  isCanceled : Bool := false
  isDropped : Bool := false
  value : Option Nat := none
  errorValue : Option Nat := none
deriving DecidableEq, Repr

/-- Modelled from the spec: `status` is the single lifecycle state, kept
consistent with the booleans by construction; here it is derived from the
stored booleans (which is how consistency is maintained when `utils.ts`
assigns the booleans).  `pending` is the transient state before admission,
when no lifecycle boolean is set. -/
def TaskInstance.status (i : TaskInstance) : Status :=
  if i.isRunning then Status.running
  else if i.isEnqueued then Status.enqueued
  else if i.isSuccessful then Status.successful
  else if i.isError then Status.error
  else if i.isCanceled then Status.canceled
  else if i.isDropped then Status.dropped
  else Status.pending

/-- The names of the boolean-valued lifecycle fields of `TaskInstance`
(the `BooleanKeys<TaskInstance>` type of `utils.ts`). -/
inductive InstanceBoolKey where
  | isEnqueued
  | isRunning
  | isSuccessful
  | isError
  | isCanceled
  | isDropped
deriving DecidableEq, Repr

/-- Field access `instance[key]` for a boolean field name. -/
def TaskInstance.getBool (i : TaskInstance) : InstanceBoolKey → Bool
  | InstanceBoolKey.isEnqueued => i.isEnqueued
  | InstanceBoolKey.isRunning => i.isRunning
  | InstanceBoolKey.isSuccessful => i.isSuccessful
  | InstanceBoolKey.isError => i.isError
  | InstanceBoolKey.isCanceled => i.isCanceled
  | InstanceBoolKey.isDropped => i.isDropped

/-- The status value a boolean lifecycle field corresponds to. -/
def InstanceBoolKey.toStatus : InstanceBoolKey → Status
  | InstanceBoolKey.isEnqueued => Status.enqueued
  | InstanceBoolKey.isRunning => Status.running
  | InstanceBoolKey.isSuccessful => Status.successful
  | InstanceBoolKey.isError => Status.error
  | InstanceBoolKey.isCanceled => Status.canceled
  | InstanceBoolKey.isDropped => Status.dropped

/-- An instance is active when it is running or enqueued (the filter behind
the task's `_activeInstances` subsequence). -/
def TaskInstance.isActive (i : TaskInstance) : Bool :=
  i.isRunning || i.isEnqueued

/-- Modelled from the spec: `TaskInstance.cancel()` (`TaskInstance.ts` is not
under `src/`): transitions to `canceled` if currently running or enqueued,
and is a no-op on terminal instances. -/
def TaskInstance.cancel (i : TaskInstance) : TaskInstance :=
  if i.isRunning || i.isEnqueued then
    { i with isRunning := false, isEnqueued := false, isCanceled := true }
  else i

/-- Modelled from the spec: the `Task` record (`Task.ts` is not under
`src/`): the insertion-ordered instance sequence and the configured
concurrency ceiling.  The running/active/enqueued collections are derived
(computed) subsequences, defined below. -/
structure Task where
  _instances : List TaskInstance
  _maxConcurrency : Nat
deriving DecidableEq, Repr

/-- Modelled from the spec: `_runningInstances` is the subsequence of
`_instances` whose members are running. -/
def Task._runningInstances (t : Task) : List TaskInstance :=
  t._instances.filter (fun i => i.isRunning)

/-- Modelled from the spec: `_activeInstances` is the subsequence of
`_instances` whose members are running or enqueued. -/
def Task._activeInstances (t : Task) : List TaskInstance :=
  t._instances.filter (fun i => i.isActive)

/-- Modelled from the spec: `_enqueuedInstances` is the subsequence of
`_instances` whose members are enqueued. -/
def Task._enqueuedInstances (t : Task) : List TaskInstance :=
  t._instances.filter (fun i => i.isEnqueued)

/-- From `utils.ts`: `reachedMaxConcurrency` returns whether
`task._runningInstances.length >= task._maxConcurrency`. -/
def reachedMaxConcurrency (task : Task) : Bool :=
  decide (task._runningInstances.length ≥ task._maxConcurrency)

/-- Cancelling the first active instance of an insertion-ordered list, in
place: the functional rendering of looking up `task._activeInstances[0]`
and calling `.cancel()` on that (shared, mutable) instance. -/
def cancelFirstRunningList : List TaskInstance → List TaskInstance
  | [] => []
  | i :: rest =>
    if i.isActive then i.cancel :: rest
    else i :: cancelFirstRunningList rest

/-- From `utils.ts`: `cancelFirstRunning` reads `task._activeInstances[0]`
and, when it exists, cancels it; otherwise it does nothing. -/
def cancelFirstRunning (task : Task) : Task :=
  { task with _instances := cancelFirstRunningList task._instances }

/-- The per-instance mutation performed by `dropEnqueued`'s loop body:
`instance.isEnqueued = false; instance.isDropped = true`. -/
def dropInstance (i : TaskInstance) : TaskInstance :=
  { i with isEnqueued := false, isDropped := true }

/-- From `utils.ts`: `dropEnqueued` iterates `task._enqueuedInstances`
(the instances with `isEnqueued` true) and applies the drop mutation to
each; in-place mutation of the filtered instances is rendered as a
conditional map over the full sequence. -/
def dropEnqueued (task : Task) : Task :=
  { task with
    _instances :=
      task._instances.map (fun i => if i.isEnqueued then dropInstance i else i) }

/-- From `utils.ts`: `computedFilterBy(cb, key, value?)` is a computed view
filtering `cb()` by the truthiness of `item[key]`, or by `item[key] ===
value` when a truthy `value` was supplied.  The computed primitive is
modelled as a recompute-on-read function, and the boolean-field use made by
`filteredInstances` fixes the item field type to `Bool`; JavaScript
truthiness of the optional `value` makes only `some true` take the
equality-comparison branch. -/
def computedFilterBy (cb : Unit → List α) (key : α → Bool) (value : Option Bool) :
    Unit → List α :=
  fun u =>
    (cb u).filter (fun item =>
      let curr := key item
      match value with
      | some true => curr == true
      | _ => curr)

/-- From `utils.ts`: `filteredInstances(cb, key)` returns an always-empty
computed view when no key is supplied (`!key`), and otherwise filters the
task's `_instances` by the named boolean field (no `value` argument is
passed on). -/
def filteredInstances (cb : Unit → Task) (key : Option InstanceBoolKey) :
    Unit → List TaskInstance :=
  match key with
  | none => fun _ => []
  | some k => computedFilterBy (fun u => (cb u)._instances) (fun i => i.getBool k) none

/-- From `utils.ts`: `computedLength(cb)` reads as `cb().length`. -/
def computedLength (cb : Unit → List α) : Unit → Nat :=
  fun u => (cb u).length

/-- From `utils.ts`: `computedLastOf(cb)` reads as
`collection[collection.length - 1]`, which is `undefined` (here `none`) on
an empty collection since index `-1` is out of range. -/
def computedLastOf (cb : Unit → List α) : Unit → Option α :=
  fun u =>
    let collection := cb u
    collection[collection.length - 1]?

/-- From `utils.ts`: `computedFirstOf(cb)` reads as `collection[0]`, which
is `undefined` (here `none`) on an empty collection. -/
def computedFirstOf (cb : Unit → List α) : Unit → Option α :=
  fun u =>
    let collection := cb u
    collection[0]?

/-- Modelled from the spec: the settlement state of the JavaScript promise
underlying `defer()` (the promise primitive is an external collaborator).
A promise is unsettled until the first settlement and then holds either its
resolution or its rejection reason. -/
inductive PromiseState where
  | unsettled
  | resolved
  | rejected (reason : Nat)
deriving DecidableEq, Repr

/-- From `utils.ts`: `defer()` builds a fresh promise together with its
externally callable `resolve`/`reject` triggers; the observable state is
the promise's settlement state, initially unsettled. -/
structure DeferredObject where
  promiseState : PromiseState
deriving DecidableEq, Repr

/-- From `utils.ts`: `defer()` returns a deferred object over a freshly
constructed, not yet settled promise. -/
def defer : DeferredObject :=
  { promiseState := PromiseState.unsettled }

/-- Modelled from the spec: promise resolution — standard settlement
semantics, the first settlement wins and later calls have no effect. -/
def DeferredObject.resolve (d : DeferredObject) : DeferredObject :=
  match d.promiseState with
  | PromiseState.unsettled => { promiseState := PromiseState.resolved }
  | _ => d

/-- Modelled from the spec: promise rejection — standard settlement
semantics, the first settlement wins and later calls have no effect. -/
def DeferredObject.reject (d : DeferredObject) (reason : Nat) : DeferredObject :=
  match d.promiseState with
  | PromiseState.unsettled => { promiseState := PromiseState.rejected reason }
  | _ => d

/-- A call made against a deferred object: invoking its `resolve` or its
`reject` function. -/
inductive SettleCall where
  | callResolve
  | callReject (reason : Nat)
deriving DecidableEq, Repr

/-- Apply one `resolve`/`reject` call to a deferred object. -/
def applySettle (d : DeferredObject) : SettleCall → DeferredObject
  | SettleCall.callResolve => d.resolve
  | SettleCall.callReject reason => d.reject reason

/-- Apply a sequence of `resolve`/`reject` calls, in order. -/
def applySettles (d : DeferredObject) (calls : List SettleCall) : DeferredObject :=
  calls.foldl applySettle d

/-- The settled state a single call produces on a fresh promise. -/
def settleOutcome : SettleCall → PromiseState
  | SettleCall.callResolve => PromiseState.resolved
  | SettleCall.callReject reason => PromiseState.rejected reason

/-- Modelled from the spec: the observable outcome of an abort signal's
promise `signal.pr` — still pending (the signal was never cancelled),
fulfilled, or rejected with a reason; cancellation settles it with the
`"cancel"` marker by rejection. -/
inductive PrOutcome where
  | pending
  | fulfilled
  | rejected (reason : String)
deriving DecidableEq, Repr

/-- Modelled from the spec: the signal's cancellation has occurred exactly
when its promise settled with the cancellation marker. -/
def signalCancelled (outcome : PrOutcome) : Bool :=
  outcome == PrOutcome.rejected "cancel"

/-- A client-native cancel token; `requested` records whether its `cancel`
executor callback was invoked. -/
structure CancelToken where
  requested : Bool
deriving DecidableEq, Repr

/-- From `utils.ts`: `getCancelToken(axios, signal)` builds a client cancel
token whose `cancel` function is invoked from `signal.pr.catch` exactly
when the rejection reason is `"cancel"`; the `.catch` handler never runs
for a pending or fulfilled promise. -/
def getCancelToken (outcome : PrOutcome) : CancelToken :=
  { requested :=
      match outcome with
      | PrOutcome.rejected reason => reason == "cancel"
      | _ => false }

/-- A freshly constructed instance admitted straight to running. -/
def mkRunningInstance (newId : Nat) : TaskInstance :=
  { id := newId, isRunning := true }

/-- A freshly constructed instance admitted to the queue. -/
def mkEnqueuedInstance (newId : Nat) : TaskInstance :=
  { id := newId, isEnqueued := true }

/-- Modelled from the spec: the Enqueue-policy admission step of
`Task.perform` (`Task.ts` is not under `src/`): the new instance is marked
enqueued when the admission check `reachedMaxConcurrency` holds, and runs
immediately otherwise; admission is synchronous and atomic per call. -/
def performEnqueue (task : Task) (newId : Nat) : Task :=
  if reachedMaxConcurrency task then
    { task with _instances := task._instances ++ [mkEnqueuedInstance newId] }
  else
    { task with _instances := task._instances ++ [mkRunningInstance newId] }

/-- Mark the first running instance successful, in place. -/
def finishFirstRunningList : List TaskInstance → List TaskInstance
  | [] => []
  | i :: rest =>
    if i.isRunning then
      { i with isRunning := false, isSuccessful := true } :: rest
    else i :: finishFirstRunningList rest

/-- Promote the first enqueued instance to running, in place. -/
def promoteFirstEnqueuedList : List TaskInstance → List TaskInstance
  | [] => []
  | i :: rest =>
    if i.isEnqueued then
      { i with isEnqueued := false, isRunning := true } :: rest
    else i :: promoteFirstEnqueuedList rest

/-- Modelled from the spec: the other state change of the Enqueue policy —
a running instance completes, freeing a slot, and the first enqueued
instance (FIFO) is promoted to running when a slot is free. -/
def finishAndPromote (task : Task) : Task :=
  let finished := finishFirstRunningList task._instances
  if (finished.filter (fun i => i.isRunning)).length < task._maxConcurrency then
    { task with _instances := promoteFirstEnqueuedList finished }
  else
    { task with _instances := finished }

/-- An event in the life of an Enqueue-policy task: one `perform` call or
one completion (with FIFO promotion). -/
inductive TaskEvent where
  | performCall (newId : Nat)
  | finishRunning
deriving DecidableEq, Repr

/-- Apply one event to a task. -/
def applyEvent (task : Task) : TaskEvent → Task
  | TaskEvent.performCall newId => performEnqueue task newId
  | TaskEvent.finishRunning => finishAndPromote task

/-- Apply a sequence of events, in order. -/
def applyEvents (task : Task) (events : List TaskEvent) : Task :=
  events.foldl applyEvent task

/-! Helper lemmas. -/

lemma cancelFirstRunningList_of_inactive (l : List TaskInstance)
    (h : ∀ i ∈ l, i.isActive = false) : cancelFirstRunningList l = l := by
  induction l with
  | nil => rfl
  | cons i rest ih =>
    have hi := h i (List.mem_cons_self _ _)
    simp [cancelFirstRunningList, hi,
      ih (fun j hj => h j (List.mem_cons_of_mem _ hj))]

lemma cancelFirstRunningList_split (p s : List TaskInstance) (a : TaskInstance)
    (hp : ∀ i ∈ p, i.isActive = false) (ha : a.isActive = true) :
    cancelFirstRunningList (p ++ a :: s) = p ++ a.cancel :: s := by
  induction p with
  | nil => simp [cancelFirstRunningList, ha]
  | cons i rest ih =>
    have hi := hp i (List.mem_cons_self _ _)
    simp [cancelFirstRunningList, hi,
      ih (fun j hj => hp j (List.mem_cons_of_mem _ hj))]

lemma filter_active_head (p s : List TaskInstance) (a : TaskInstance)
    (hp : ∀ i ∈ p, i.isActive = false) (ha : a.isActive = true) :
    ((p ++ a :: s).filter (fun i => i.isActive)).head? = some a := by
  induction p with
  | nil => simp [List.filter_cons, ha]
  | cons i rest ih =>
    have hi := hp i (List.mem_cons_self _ _)
    have ih' := ih (fun j hj => hp j (List.mem_cons_of_mem _ hj))
    rw [List.cons_append, List.filter_cons_of_neg]
    · exact ih'
    · simp [hi]

lemma applySettle_settled (d : DeferredObject)
    (h : d.promiseState ≠ PromiseState.unsettled) (c : SettleCall) :
    applySettle d c = d := by
  cases c <;> cases hd : d.promiseState <;>
    simp_all [applySettle, DeferredObject.resolve, DeferredObject.reject]

lemma applySettles_settled (d : DeferredObject)
    (h : d.promiseState ≠ PromiseState.unsettled) (calls : List SettleCall) :
    applySettles d calls = d := by
  induction calls with
  | nil => rfl
  | cons c rest ih =>
    have hstep : applySettles d (c :: rest) = applySettles (applySettle d c) rest := rfl
    rw [hstep, applySettle_settled d h c]
    exact ih

/-! Theorems for the claims, with concrete fixtures for witnesses. -/

/-- A fixture: a terminal (successful) instance. -/
def instSucc : TaskInstance := { id := 0, isSuccessful := true }

/-- A fixture: a running instance. -/
def instRunA : TaskInstance := { id := 1, isRunning := true }

/-- A fixture: a second running instance. -/
def instRunB : TaskInstance := { id := 2, isRunning := true }

/-- A fixture: an enqueued instance. -/
def instEnq : TaskInstance := { id := 3, isEnqueued := true }

/-- C2: under the Restartable policy the eviction step `cancelFirstRunning`
cancels exactly the instance at index 0 of the active subsequence — the
oldest active instance by invocation order — and leaves every other
instance unchanged: if the instance sequence splits as `p ++ a :: s` with
everything in `p` inactive and `a` active, then `a` is the head of
`_activeInstances`, and the result is `p ++ a.cancel :: s` with `a.cancel`
canceled and no longer running or enqueued. -/
theorem cancelFirstRunning_cancels_exactly_first_active (t : Task)
    (p s : List TaskInstance) (a : TaskInstance)
    (hsplit : t._instances = p ++ a :: s)
    (hp : ∀ i ∈ p, i.isActive = false) (ha : a.isActive = true) :
    t._activeInstances.head? = some a ∧
    (cancelFirstRunning t)._instances = p ++ a.cancel :: s ∧
    a.cancel.isCanceled = true ∧ a.cancel.isRunning = false ∧
    a.cancel.isEnqueued = false := by
  have hcancel : a.cancel =
      { a with isRunning := false, isEnqueued := false, isCanceled := true } := by
    have : (a.isRunning || a.isEnqueued) = true := ha
    simp [TaskInstance.cancel, this]
  refine ⟨?_, ?_, ?_, ?_, ?_⟩
  · rw [Task._activeInstances, hsplit]
    exact filter_active_head p s a hp ha
  · show cancelFirstRunningList t._instances = p ++ a.cancel :: s
    rw [hsplit]
    exact cancelFirstRunningList_split p s a hp ha
  · rw [hcancel]
  · rw [hcancel]
  · rw [hcancel]

/-- The task fixture for the C2 witness. -/
def taskC2 : Task := { _instances := [instSucc, instRunA, instRunB], _maxConcurrency := 2 }

/-- Witness for C2 at a concrete task: with a terminal instance first and
two running instances behind it, the first running instance is the one
cancelled and the other two are untouched. -/
theorem cancelFirstRunning_cancels_exactly_first_active_witness :
    taskC2._instances = [instSucc] ++ instRunA :: [instRunB] ∧
    (∀ i ∈ [instSucc], i.isActive = false) ∧
    instRunA.isActive = true ∧
    (taskC2._activeInstances.head? = some instRunA ∧
     (cancelFirstRunning taskC2)._instances = [instSucc] ++ instRunA.cancel :: [instRunB] ∧
     instRunA.cancel.isCanceled = true ∧ instRunA.cancel.isRunning = false ∧
     instRunA.cancel.isEnqueued = false) :=
  ⟨rfl, by decide, by decide,
    cancelFirstRunning_cancels_exactly_first_active taskC2 [instSucc] [instRunB]
      instRunA rfl (by decide) (by decide)⟩

/-- C3: `dropEnqueued` marks exactly the instances of the enqueued
subsequence (`isEnqueued = false`, `isDropped = true`) and leaves every
instance outside that subsequence — in particular every running one —
completely unchanged; the instance sequence keeps its length, and position
`k` holds the dropped form of the old instance when it was enqueued and the
very same instance otherwise. -/
theorem dropEnqueued_drops_exactly_enqueued (t : Task) (k : Nat) (i : TaskInstance)
    (h : t._instances[k]? = some i) :
    (dropEnqueued t)._instances.length = t._instances.length ∧
    (i ∈ t._enqueuedInstances ↔ i ∈ t._instances ∧ i.isEnqueued = true) ∧
    (i.isEnqueued = true →
      (dropEnqueued t)._instances[k]? = some (dropInstance i) ∧
      (dropInstance i).isEnqueued = false ∧ (dropInstance i).isDropped = true ∧
      (dropInstance i).isRunning = i.isRunning ∧
      (dropInstance i).isSuccessful = i.isSuccessful ∧
      (dropInstance i).isError = i.isError ∧
      (dropInstance i).isCanceled = i.isCanceled ∧
      (dropInstance i).value = i.value ∧
      (dropInstance i).errorValue = i.errorValue) ∧
    (i.isEnqueued = false → (dropEnqueued t)._instances[k]? = some i) := by
  refine ⟨?_, ?_, fun he => ?_, fun he => ?_⟩
  · simp [dropEnqueued]
  · simp [Task._enqueuedInstances, List.mem_filter]
  · refine ⟨?_, by simp [dropInstance], by simp [dropInstance], by simp [dropInstance],
      by simp [dropInstance], by simp [dropInstance], by simp [dropInstance],
      by simp [dropInstance], by simp [dropInstance]⟩
    show (t._instances.map fun j => if j.isEnqueued then dropInstance j else j)[k]? = _
    rw [List.getElem?_map, h]
    simp [he]
  · show (t._instances.map fun j => if j.isEnqueued then dropInstance j else j)[k]? = _
    rw [List.getElem?_map, h]
    simp [he]

/-- The task fixture for the C3 witness. -/
def taskC3 : Task := { _instances := [instEnq, instRunA], _maxConcurrency := 1 }

/-- Witness for C3 at a concrete task: the enqueued instance at index 0 is
dropped in place and keeps all its other fields. -/
theorem dropEnqueued_drops_exactly_enqueued_witness :
    taskC3._instances[0]? = some instEnq ∧
    instEnq.isEnqueued = true ∧
    (dropEnqueued taskC3)._instances[0]? = some (dropInstance instEnq) ∧
    (dropInstance instEnq).isEnqueued = false ∧
    (dropInstance instEnq).isDropped = true :=
  ⟨rfl, rfl,
    ((dropEnqueued_drops_exactly_enqueued taskC3 0 instEnq rfl).2.2.1 rfl).1,
    ((dropEnqueued_drops_exactly_enqueued taskC3 0 instEnq rfl).2.2.1 rfl).2.1,
    ((dropEnqueued_drops_exactly_enqueued taskC3 0 instEnq rfl).2.2.1 rfl).2.2.1⟩

/-- C5: a `filteredInstances` view with a boolean field name reads as
exactly the instances of the task's sequence whose field is true at the
time of the read, in the original relative (insertion) order — the read
result is a sublist of `_instances`, and membership holds exactly for the
instances with the field set. -/
theorem filteredInstances_exactly_true_in_order (cb : Unit → Task)
    (k : InstanceBoolKey) (u : Unit) :
    (filteredInstances cb (some k) u).Sublist (cb u)._instances ∧
    ∀ i, i ∈ filteredInstances cb (some k) u ↔
      i ∈ (cb u)._instances ∧ i.getBool k = true := by
  have heq : filteredInstances cb (some k) u =
      (cb u)._instances.filter (fun i => i.getBool k) := rfl
  constructor
  · rw [heq]; exact List.filter_sublist _
  · intro i
    rw [heq, List.mem_filter]

/-- C6: `filteredInstances` with no key supplied reads as the empty
sequence on every read, whatever the task's instance collection holds, and
is total (no error). -/
theorem filteredInstances_no_key_always_empty (cb : Unit → Task) (u : Unit) :
    filteredInstances cb none u = [] := rfl

/-- C7: the scalar views read as expected — `computedLength` as the length
of the accessed sequence, `computedFirstOf` as its first element (`none` on
an empty sequence), `computedLastOf` as its last element (`none` on an
empty sequence). -/
theorem computed_scalar_views_spec (cb : Unit → List α) (u : Unit) :
    computedLength cb u = (cb u).length ∧
    computedFirstOf cb u = (cb u).head? ∧
    computedLastOf cb u = (cb u).getLast? := by
  refine ⟨rfl, ?_, ?_⟩
  · show (cb u)[0]? = (cb u).head?
    exact (List.head?_eq_getElem? (cb u)).symm
  · show (cb u)[(cb u).length - 1]? = (cb u).getLast?
    exact (List.getLast?_eq_getElem? (cb u)).symm

/-- C8: first settlement wins — after any sequence of `resolve`/`reject`
calls on a fresh `defer()` object, the promise is settled with the first
call's outcome, and every later call (any order, any repetition) leaves the
settled state unchanged and is total (no throw). -/
theorem defer_first_settlement_wins (c : SettleCall) (rest : List SettleCall) :
    applySettles defer (c :: rest) = { promiseState := settleOutcome c } ∧
    settleOutcome c ≠ PromiseState.unsettled := by
  have h1 : applySettle defer c = { promiseState := settleOutcome c } := by
    cases c <;> rfl
  have h2 : settleOutcome c ≠ PromiseState.unsettled := by
    cases c <;> simp [settleOutcome]
  have hstep : applySettles defer (c :: rest) =
      applySettles (applySettle defer c) rest := rfl
  refine ⟨?_, h2⟩
  rw [hstep, h1, applySettles_settled _ (by simpa using h2) rest]

/-- C9: the cancel-token adapter fires exactly on signal cancellation — the
token's `cancel` callback is invoked if and only if the signal's promise
settled with the `"cancel"` marker; a signal whose promise stays pending or
fulfils never cancels the token. -/
theorem getCancelToken_fires_iff_signal_cancelled (outcome : PrOutcome) :
    (getCancelToken outcome).requested = true ↔ signalCancelled outcome = true := by
  cases outcome <;> simp [getCancelToken, signalCancelled]

/-- C10: `cancelFirstRunning` on a task whose active subsequence is empty
is a safe no-op: the task (its whole state) is returned unchanged and no
instance is cancelled, with no error. -/
theorem cancelFirstRunning_noop_on_empty_active (t : Task)
    (h : t._activeInstances = []) : cancelFirstRunning t = t := by
  rw [Task._activeInstances] at h
  have h' : ∀ i ∈ t._instances, i.isActive = false := by
    intro i hi
    have := List.filter_eq_nil_iff.mp h i hi
    simpa using this
  cases t with
  | mk instances maxC =>
    simp only [cancelFirstRunning]
    rw [cancelFirstRunningList_of_inactive _ h']

/-- The task fixture for the C10 witness: one terminal instance, nothing
active. -/
def taskC10 : Task := { _instances := [instSucc], _maxConcurrency := 1 }

/-- Witness for C10 at a concrete task with no active instance. -/
theorem cancelFirstRunning_noop_on_empty_active_witness :
    taskC10._activeInstances = [] ∧ cancelFirstRunning taskC10 = taskC10 :=
  ⟨by decide, cancelFirstRunning_noop_on_empty_active taskC10 (by decide)⟩

/-! Lifecycle-boolean consistency (claim C4). -/

/-- Number of lifecycle booleans set on an instance; consistency means at
most one is set (none set is the transient pending state). -/
def TaskInstance.flagCount (i : TaskInstance) : Nat :=
  (if i.isEnqueued then 1 else 0) + (if i.isRunning then 1 else 0) +
    (if i.isSuccessful then 1 else 0) + (if i.isError then 1 else 0) +
    (if i.isCanceled then 1 else 0) + (if i.isDropped then 1 else 0)

lemma getBool_iff_status (i : TaskInstance) (hi : i.flagCount ≤ 1)
    (k : InstanceBoolKey) : i.getBool k = true ↔ i.status = k.toStatus := by
  rcases i with ⟨id, e, r, sc, er, c, d, v, ev⟩
  cases e <;> cases r <;> cases sc <;> cases er <;> cases c <;> cases d <;>
    first
      | ((cases k <;>
          simp [TaskInstance.getBool, TaskInstance.status,
            InstanceBoolKey.toStatus]); done)
      | (simp [TaskInstance.flagCount] at hi)

lemma cancel_flagCount (i : TaskInstance) (hi : i.flagCount ≤ 1) :
    i.cancel.flagCount ≤ 1 := by
  rcases i with ⟨id, e, r, sc, er, c, d, v, ev⟩
  cases e <;> cases r <;> cases sc <;> cases er <;> cases c <;> cases d <;>
    simp_all [TaskInstance.cancel, TaskInstance.flagCount]

lemma dropInstance_flagCount (i : TaskInstance) (hi : i.flagCount ≤ 1)
    (he : i.isEnqueued = true) :
    (dropInstance i).flagCount ≤ 1 ∧ (dropInstance i).status = Status.dropped := by
  rcases i with ⟨id, e, r, sc, er, c, d, v, ev⟩
  cases e <;> cases r <;> cases sc <;> cases er <;> cases c <;> cases d <;>
    simp_all [dropInstance, TaskInstance.flagCount, TaskInstance.status]

lemma mem_cancelFirstRunningList (l : List TaskInstance) (j : TaskInstance)
    (hj : j ∈ cancelFirstRunningList l) :
    j ∈ l ∨ ∃ a ∈ l, a.isActive = true ∧ j = a.cancel := by
  induction l with
  | nil => simp [cancelFirstRunningList] at hj
  | cons i rest ih =>
    by_cases hact : i.isActive = true
    · rw [cancelFirstRunningList, if_pos hact] at hj
      rcases List.mem_cons.mp hj with hj | hj
      · exact Or.inr ⟨i, List.mem_cons_self _ _, hact, hj⟩
      · exact Or.inl (List.mem_cons_of_mem _ hj)
    · rw [cancelFirstRunningList, if_neg hact] at hj
      rcases List.mem_cons.mp hj with hj | hj
      · exact Or.inl (hj ▸ List.mem_cons_self _ _)
      · rcases ih hj with hj | ⟨a, ha, haa, hja⟩
        · exact Or.inl (List.mem_cons_of_mem _ hj)
        · exact Or.inr ⟨a, List.mem_cons_of_mem _ ha, haa, hja⟩

/-- C4: for a consistent instance (at most one lifecycle boolean set) each
of the six booleans is true exactly when `status` is the corresponding
enum value, and the operations preserve this consistency: `cancel` does,
the per-instance drop mutation turns a consistent enqueued instance into a
consistent `dropped` one, and `dropEnqueued` / `cancelFirstRunning` keep
every instance of a consistent task consistent — the booleans are never
driven out of agreement with `status`. -/
theorem lifecycle_booleans_iff_status (t : Task) (i : TaskInstance)
    (hi : i.flagCount ≤ 1) (ht : ∀ j ∈ t._instances, j.flagCount ≤ 1) :
    (∀ k : InstanceBoolKey, i.getBool k = true ↔ i.status = k.toStatus) ∧
    i.cancel.flagCount ≤ 1 ∧
    (i.isEnqueued = true →
      (dropInstance i).flagCount ≤ 1 ∧ (dropInstance i).status = Status.dropped) ∧
    (∀ j ∈ (dropEnqueued t)._instances, j.flagCount ≤ 1) ∧
    (∀ j ∈ (cancelFirstRunning t)._instances, j.flagCount ≤ 1) := by
  refine ⟨getBool_iff_status i hi, cancel_flagCount i hi,
    fun he => dropInstance_flagCount i hi he, ?_, ?_⟩
  · intro j hj
    have hj' : j ∈ t._instances.map
        (fun x => if x.isEnqueued then dropInstance x else x) := hj
    rcases List.mem_map.mp hj' with ⟨x, hx, hfx⟩
    by_cases hxe : x.isEnqueued = true
    · rw [if_pos hxe] at hfx
      exact hfx ▸ (dropInstance_flagCount x (ht x hx) hxe).1
    · rw [if_neg hxe] at hfx
      exact hfx ▸ ht x hx
  · intro j hj
    have hj' : j ∈ cancelFirstRunningList t._instances := hj
    rcases mem_cancelFirstRunningList _ j hj' with hmem | ⟨a, ha, _, hja⟩
    · exact ht j hmem
    · exact hja ▸ cancel_flagCount a (ht a ha)

/-- Witness for C4 at a concrete consistent enqueued instance and a
concrete consistent task. -/
theorem lifecycle_booleans_iff_status_witness :
    instEnq.flagCount ≤ 1 ∧ (∀ j ∈ taskC3._instances, j.flagCount ≤ 1) ∧
    (instEnq.getBool InstanceBoolKey.isEnqueued = true ↔
      instEnq.status = InstanceBoolKey.isEnqueued.toStatus) ∧
    instEnq.cancel.flagCount ≤ 1 :=
  ⟨by decide, by decide,
    (lifecycle_booleans_iff_status taskC3 instEnq (by decide) (by decide)).1
      InstanceBoolKey.isEnqueued,
    (lifecycle_booleans_iff_status taskC3 instEnq (by decide) (by decide)).2.1⟩

/-! Concurrency ceiling under the Enqueue policy (claim C1). -/

lemma runningInstances_length (t : Task) :
    t._runningInstances.length = t._instances.countP (fun i => i.isRunning) := by
  rw [Task._runningInstances]
  exact (List.countP_eq_length_filter _ _).symm

lemma finishFirstRunningList_countP_le (l : List TaskInstance) :
    (finishFirstRunningList l).countP (fun i => i.isRunning) ≤
      l.countP (fun i => i.isRunning) := by
  induction l with
  | nil => simp [finishFirstRunningList]
  | cons i rest ih =>
    by_cases hr : i.isRunning = true
    · rw [finishFirstRunningList, if_pos hr]
      simp [List.countP_cons, hr]
    · rw [finishFirstRunningList, if_neg hr]
      simp [List.countP_cons, hr]
      all_goals omega

lemma promoteFirstEnqueuedList_countP_le (l : List TaskInstance) :
    (promoteFirstEnqueuedList l).countP (fun i => i.isRunning) ≤
      l.countP (fun i => i.isRunning) + 1 := by
  induction l with
  | nil => simp [promoteFirstEnqueuedList]
  | cons i rest ih =>
    by_cases he : i.isEnqueued = true <;> by_cases hr : i.isRunning = true
    · rw [promoteFirstEnqueuedList, if_pos he]
      simp [List.countP_cons, hr]
    · rw [promoteFirstEnqueuedList, if_pos he]
      simp [List.countP_cons, hr]
    · rw [promoteFirstEnqueuedList, if_neg he]
      simp [List.countP_cons, hr]
      all_goals omega
    · rw [promoteFirstEnqueuedList, if_neg he]
      simp [List.countP_cons, hr]
      all_goals omega

lemma performEnqueue_running_le (t : Task) (newId : Nat)
    (h : t._runningInstances.length ≤ t._maxConcurrency) :
    (performEnqueue t newId)._runningInstances.length ≤ t._maxConcurrency := by
  rw [runningInstances_length] at h
  rw [performEnqueue]
  split_ifs with hr
  · rw [runningInstances_length]
    show (t._instances ++ [mkEnqueuedInstance newId]).countP (fun i => i.isRunning) ≤ _
    rw [List.countP_append]
    simp [mkEnqueuedInstance, List.countP_cons]
    all_goals omega
  · have hr' : ¬ (t._instances.filter (fun i => i.isRunning)).length ≥
        t._maxConcurrency := by
      simpa [reachedMaxConcurrency, Task._runningInstances] using hr
    have hlt : t._instances.countP (fun i => i.isRunning) < t._maxConcurrency := by
      rw [List.countP_eq_length_filter]
      exact Nat.lt_of_not_le hr'
    rw [runningInstances_length]
    show (t._instances ++ [mkRunningInstance newId]).countP (fun i => i.isRunning) ≤ _
    rw [List.countP_append]
    simp [mkRunningInstance, List.countP_cons]
    all_goals omega

lemma finishAndPromote_running_le (t : Task)
    (h : t._runningInstances.length ≤ t._maxConcurrency) :
    (finishAndPromote t)._runningInstances.length ≤ t._maxConcurrency := by
  have hfin := finishFirstRunningList_countP_le t._instances
  have hprom := promoteFirstEnqueuedList_countP_le (finishFirstRunningList t._instances)
  rw [runningInstances_length] at h
  simp only [finishAndPromote]
  split_ifs with hc
  · rw [runningInstances_length]
    show (promoteFirstEnqueuedList (finishFirstRunningList t._instances)).countP
      (fun i => i.isRunning) ≤ _
    have hc' : ((finishFirstRunningList t._instances).filter
        (fun i => i.isRunning)).length < t._maxConcurrency := hc
    rw [← List.countP_eq_length_filter] at hc'
    omega
  · rw [runningInstances_length]
    show (finishFirstRunningList t._instances).countP (fun i => i.isRunning) ≤ _
    omega

lemma applyEvent_maxConcurrency (t : Task) (e : TaskEvent) :
    (applyEvent t e)._maxConcurrency = t._maxConcurrency := by
  cases e with
  | performCall newId =>
    rw [applyEvent, performEnqueue]
    split_ifs <;> rfl
  | finishRunning =>
    rw [applyEvent]
    simp only [finishAndPromote]
    split_ifs <;> rfl

lemma applyEvent_running_le (t : Task) (e : TaskEvent)
    (h : t._runningInstances.length ≤ t._maxConcurrency) :
    (applyEvent t e)._runningInstances.length ≤ (applyEvent t e)._maxConcurrency := by
  rw [applyEvent_maxConcurrency]
  cases e with
  | performCall newId => exact performEnqueue_running_le t newId h
  | finishRunning => exact finishAndPromote_running_le t h

lemma applyEvents_running_le (events : List TaskEvent) (t : Task)
    (h : t._runningInstances.length ≤ t._maxConcurrency) :
    (applyEvents t events)._runningInstances.length ≤
      (applyEvents t events)._maxConcurrency := by
  induction events generalizing t with
  | nil => exact h
  | cons e rest ih =>
    have hstep : applyEvents t (e :: rest) = applyEvents (applyEvent t e) rest := rfl
    rw [hstep]
    exact ih _ (applyEvent_running_le t e h)

/-- C1: under the Enqueue policy the number of running instances never
exceeds `maxConcurrency` — every sequence of `perform` and
completion/promotion events starting from a state within the ceiling stays
within the ceiling — and the admission check `reachedMaxConcurrency` is
true exactly when the running-instance sequence's length is at least the
task's `maxConcurrency`. -/
theorem running_never_exceeds_maxConcurrency (t : Task) (events : List TaskEvent)
    (h : t._runningInstances.length ≤ t._maxConcurrency) :
    (applyEvents t events)._runningInstances.length ≤
      (applyEvents t events)._maxConcurrency ∧
    (∀ u : Task, reachedMaxConcurrency u = true ↔
      u._runningInstances.length ≥ u._maxConcurrency) :=
  ⟨applyEvents_running_le events t h, fun u => by simp [reachedMaxConcurrency]⟩

/-- The fresh-task fixture for the C1 witness. -/
def taskC1 : Task := { _instances := [], _maxConcurrency := 1 }

/-- The event-sequence fixture for the C1 witness: two `perform` calls into
a ceiling of one, then a completion with FIFO promotion. -/
def eventsC1 : List TaskEvent :=
  [TaskEvent.performCall 1, TaskEvent.performCall 2, TaskEvent.finishRunning]

/-- Witness for C1 at a fresh task with ceiling one and a concrete event
sequence that saturates it. -/
theorem running_never_exceeds_maxConcurrency_witness :
    taskC1._runningInstances.length ≤ taskC1._maxConcurrency ∧
    ((applyEvents taskC1 eventsC1)._runningInstances.length ≤
        (applyEvents taskC1 eventsC1)._maxConcurrency ∧
      (reachedMaxConcurrency (applyEvents taskC1 eventsC1) = true ↔
        (applyEvents taskC1 eventsC1)._runningInstances.length ≥
          (applyEvents taskC1 eventsC1)._maxConcurrency)) :=
  ⟨by decide,
    ⟨(running_never_exceeds_maxConcurrency taskC1 eventsC1 (by decide)).1,
      (running_never_exceeds_maxConcurrency taskC1 eventsC1 (by decide)).2 _⟩⟩

end VueConcurrency
